import Mathlib

/-!
Verification of the directory-structure suggestion pipeline.

This file shallowly embeds the pipeline's Python modules
(`services.py`, `utils.py`, `agent.py`, `models.py`) as executable Lean
definitions and proves the specified properties about them.

Modelling conventions:
* Python JSON-like values are the inductive type `DirGen.Json`; objects are
  association lists with unique keys in insertion order (as produced by
  `json.loads`, whose duplicate-key policy of "last value wins, first
  position kept" is reproduced by `DirGen.insertPair`).
* Python code that can raise an exception is modelled in `Except Unit`;
  `.error ()` stands for an uncaught Python exception (`AttributeError`,
  `KeyError`, `TypeError`, ...).
* Python truthiness (`if x:`) is modelled by `DirGen.jsonTruthy`.
* Recursion over dynamically nested data uses an explicit fuel argument,
  always called with more fuel than the input can consume.
-/

namespace DirGen

/-- JSON-like Python values, as produced by `json.loads`.
Numbers are represented exactly as a decimal mantissa/exponent pair
(`num m e` denotes `m * 10 ^ e`); Python's `NaN` / `Infinity` / `-Infinity`
extensions get their own constructors. -/
inductive Json where
  | null : Json
  | bool (b : Bool) : Json
  | num (m e : Int) : Json
  | nan : Json
  | infinity (negative : Bool) : Json
  | str (s : String) : Json
  | arr (items : List Json) : Json
  | obj (kvs : List (String × Json)) : Json
deriving Repr

/-- Python truthiness of a JSON value (`if x:`). -/
def jsonTruthy : Json → Bool
  | .null => false
  | .bool b => b
  | .num m _ => !(m == 0)
  | .nan => true
  | .infinity _ => true
  | .str s => !s.isEmpty
  | .arr items => !items.isEmpty
  | .obj kvs => !kvs.isEmpty

/-- Dictionary lookup (`d.get(k)` / `d[k]` on the value side); keys are
unique in objects built by the embedded parser, so first match suffices. -/
def getKey? (kvs : List (String × Json)) (k : String) : Option Json :=
  match kvs with
  | [] => none
  | (k', v) :: rest => if k' = k then some v else getKey? rest k

/-- Replace the value stored at the first occurrence of key `k`
(models in-place mutation of an existing dictionary entry). -/
def setFirst (kvs : List (String × Json)) (k : String) (v : Json) :
    List (String × Json) :=
  match kvs with
  | [] => []
  | (k', v') :: rest =>
    if k' = k then (k', v) :: rest else (k', v') :: setFirst rest k v

/-- Replace the value of key `k` in an object, leaving anything else alone. -/
def setKey (j : Json) (k : String) (v : Json) : Json :=
  match j with
  | .obj kvs => .obj (setFirst kvs k v)
  | other => other

/-- Python dict insertion while parsing an object literal: an existing key
keeps its position but receives the new value, a new key is appended. -/
def insertPair (kvs : List (String × Json)) (k : String) (v : Json) :
    List (String × Json) :=
  match kvs with
  | [] => [(k, v)]
  | (k', v') :: rest =>
    if k' = k then (k', v) :: rest else (k', v') :: insertPair rest k v

/-- Does this JSON value equal the Python string `s` (`value == s`)? -/
def isStrEq (j : Json) (s : String) : Bool :=
  match j with
  | .str t => t == s
  | _ => false

/-! ### `ValidationService.validate_structure` (services.py 112-136) -/

/-- The `file_names` accumulation loop of `validate_structure`: collect the
`name` values (default `""`) of top-level entries whose `type` equals
`"file"`.  A non-dictionary entry raises `AttributeError` on `.get`. -/
def collectFileNames : List Json → Except Unit (List Json)
  | [] => .ok []
  | item :: rest =>
    match item with
    | .obj kvs =>
      match collectFileNames rest with
      | .error e => .error e
      | .ok names =>
        if (getKey? kvs "type").any (fun t => isStrEq t "file") then
          .ok (((getKey? kvs "name").getD (.str "")) :: names)
        else .ok names
    | _ => .error ()

/-- `ValidationService.validate_structure`: `.ok b` models a normal return
of `b`, `.error ()` models an uncaught exception (raised when a top-level
entry of the `structure` list is not a mapping). -/
def validate_structure (s : Json) : Except Unit Bool :=
  match s with
  | .obj kvs =>
    if (getKey? kvs "name").isNone then .ok false
    else if (getKey? kvs "structure").isNone then .ok false
    else
      match getKey? kvs "structure" with
      | some (.arr items) =>
        (collectFileNames items).map (fun names =>
          names.any (fun n => isStrEq n "README.md") &&
          names.any (fun n => isStrEq n ".gitignore"))
      | _ => .ok false
  | _ => .ok false

/-- Is this JSON value a File node carrying exactly the name `nm`
(spec terminology: a mapping with `"type": "file"` and `"name": nm`)? -/
def isFileNamed (nm : String) (j : Json) : Bool :=
  match j with
  | .obj kvs =>
    (getKey? kvs "type").any (fun t => isStrEq t "file") &&
    (getKey? kvs "name").any (fun n => isStrEq n nm)
  | _ => false

/-- Modelled from the spec's words (section 4.6 of the design document):
the candidate is a mapping with `name` and `structure` keys, `structure` is
a sequence, and that sequence contains a top-level File node named
`README.md` and one named `.gitignore`. -/
def specValidCandidate (s : Json) : Bool :=
  match s with
  | .obj kvs =>
    (getKey? kvs "name").isSome &&
    (match getKey? kvs "structure" with
     | some (.arr items) =>
       items.any (isFileNamed "README.md") &&
       items.any (isFileNamed ".gitignore")
     | _ => false)
  | _ => false

/-- Is this JSON value a mapping? -/
def isObjB : Json → Bool
  | .obj _ => true
  | _ => false

/-- Are all entries of the top-level `structure` sequence mappings?
(vacuously true when there is no top-level sequence at all). -/
def topItemsAllObj (s : Json) : Bool :=
  match s with
  | .obj kvs =>
    match getKey? kvs "structure" with
    | some (.arr items) => items.all isObjB
    | _ => true
  | _ => true

/-! ### Python string helpers (`str.strip`, `str.lower`) -/

/-- ASCII whitespace stripped by Python's `str.strip()` (the model stays
ASCII-only; the claims never exercise Unicode whitespace). -/
def pyIsSpace (c : Char) : Bool :=
  c == ' ' || c == '\t' || c == '\n' || c == '\x0d' || c == '\x0b' || c == '\x0c'

/-- `str.strip()` on a character list. -/
def pyStripList (cs : List Char) : List Char :=
  ((cs.dropWhile pyIsSpace).reverse.dropWhile pyIsSpace).reverse

/-- `str.strip()`. -/
def pyStrip (s : String) : String := String.mk (pyStripList s.data)

/-- `str.lower()` on one character (ASCII case folding; the claims never
exercise the non-ASCII cases where Python's Unicode lowercasing differs). -/
def pyLowerChar (c : Char) : Char :=
  if 'A' ≤ c && c ≤ 'Z' then Char.ofNat (c.toNat + 32) else c

/-- `str.lower()`. -/
def pyLower (s : String) : String := String.mk (s.data.map pyLowerChar)

/-! ### A model of Python's `json.loads`

Standard `json.loads` semantics: JSON whitespace is space/tab/LF/CR; numbers
follow the strict JSON grammar; `NaN`/`Infinity`/`-Infinity` are accepted
(CPython's defaults); strings are double-quoted with the usual escapes.
The only simplification is that a lone surrogate `\uXXXX` escape decodes to
U+FFFD instead of a lone surrogate code unit (which Lean's `Char` cannot
represent); no claim exercises lone surrogates.  All parsers take explicit
fuel; callers always supply more fuel than the input can consume. -/

/-- JSON whitespace (`json` module: space, tab, newline, carriage return). -/
def isJsonWs (c : Char) : Bool :=
  c == ' ' || c == '\t' || c == '\n' || c == '\x0d'

/-- Drop leading JSON whitespace. -/
def skipWs (cs : List Char) : List Char := cs.dropWhile isJsonWs

/-- Value of one hexadecimal digit. -/
def hexVal (c : Char) : Option Nat :=
  if '0' ≤ c && c ≤ '9' then some (c.toNat - 48)
  else if 'a' ≤ c && c ≤ 'f' then some (c.toNat - 87)
  else if 'A' ≤ c && c ≤ 'F' then some (c.toNat - 55)
  else none

/-- Four hex digits of a `\uXXXX` escape. -/
def parseHex4 : List Char → Option (Nat × List Char)
  | a :: b :: c :: d :: rest =>
    match hexVal a, hexVal b, hexVal c, hexVal d with
    | some va, some vb, some vc, some vd =>
      some (((va * 16 + vb) * 16 + vc) * 16 + vd, rest)
    | _, _, _, _ => none
  | _ => none

/-- Body of a JSON string literal, after the opening quote.  Returns the
decoded string and the remaining input.  Unescaped control characters are
rejected (strict mode), surrogate pairs are combined. -/
def parseStringBody : Nat → List Char → List Char → Option (String × List Char)
  | 0, _, _ => none
  | fuel + 1, cs, acc =>
    match cs with
    | [] => none
    | '"' :: rest => some (String.mk acc.reverse, rest)
    | '\\' :: rest =>
      match rest with
      | '"' :: r => parseStringBody fuel r ('"' :: acc)
      | '\\' :: r => parseStringBody fuel r ('\\' :: acc)
      | '/' :: r => parseStringBody fuel r ('/' :: acc)
      | 'b' :: r => parseStringBody fuel r ('\x08' :: acc)
      | 'f' :: r => parseStringBody fuel r ('\x0c' :: acc)
      | 'n' :: r => parseStringBody fuel r ('\n' :: acc)
      | 'r' :: r => parseStringBody fuel r ('\x0d' :: acc)
      | 't' :: r => parseStringBody fuel r ('\t' :: acc)
      | 'u' :: r =>
        match parseHex4 r with
        | none => none
        | some (n, r2) =>
          if 0xd800 ≤ n && n ≤ 0xdbff then
            match r2 with
            | '\\' :: 'u' :: r3 =>
              match parseHex4 r3 with
              | some (n2, r4) =>
                if 0xdc00 ≤ n2 && n2 ≤ 0xdfff then
                  parseStringBody fuel r4
                    (Char.ofNat (0x10000 + (n - 0xd800) * 0x400 + (n2 - 0xdc00)) :: acc)
                else parseStringBody fuel r2 (Char.ofNat 0xfffd :: acc)
              | none => parseStringBody fuel r2 (Char.ofNat 0xfffd :: acc)
            | _ => parseStringBody fuel r2 (Char.ofNat 0xfffd :: acc)
          else if 0xdc00 ≤ n && n ≤ 0xdfff then
            parseStringBody fuel r2 (Char.ofNat 0xfffd :: acc)
          else
            parseStringBody fuel r2 (Char.ofNat n :: acc)
      | _ => none
    | c :: rest =>
      if c.toNat < 0x20 then none else parseStringBody fuel rest (c :: acc)

/-- Numeric value of a digit string. -/
def natOfDigits (ds : List Char) : Nat :=
  ds.foldl (fun a c => a * 10 + (c.toNat - 48)) 0

/-- A JSON number after its integer digits: optional fraction and exponent
(each left unconsumed when malformed, exactly like the `json` module's
number regex, which then fails at the surrounding context). -/
def parseNumberTail (neg : Bool) (intDs : List Char) (rest : List Char) :
    Json × List Char :=
  let fracStep : List Char × List Char :=
    match rest with
    | '.' :: r =>
      let ds := r.takeWhile Char.isDigit
      if ds.isEmpty then ([], rest) else (ds, r.dropWhile Char.isDigit)
    | _ => ([], rest)
  let fracDs := fracStep.1
  let rest2 := fracStep.2
  let expStep : Int × List Char :=
    match rest2 with
    | e :: r =>
      if e == 'e' || e == 'E' then
        let sgnStep : Int × List Char :=
          match r with
          | '+' :: rr => (1, rr)
          | '-' :: rr => (-1, rr)
          | _ => (1, r)
        let ds := sgnStep.2.takeWhile Char.isDigit
        if ds.isEmpty then (0, rest2)
        else (sgnStep.1 * (natOfDigits ds : Int), sgnStep.2.dropWhile Char.isDigit)
      else (0, rest2)
    | [] => (0, rest2)
  let mAbs : Int := (natOfDigits (intDs ++ fracDs) : Int)
  let m := if neg then -mAbs else mAbs
  (.num m (expStep.1 - (fracDs.length : Int)), expStep.2)

/-- A JSON number literal (strict grammar: `-? (0 | [1-9][0-9]*) frac? exp?`). -/
def parseNumber (cs : List Char) : Option (Json × List Char) :=
  let signStep : Bool × List Char :=
    match cs with
    | '-' :: r => (true, r)
    | _ => (false, cs)
  match signStep.2 with
  | '0' :: r => some (parseNumberTail signStep.1 ['0'] r)
  | c :: r =>
    if c.isDigit then
      some (parseNumberTail signStep.1 (c :: r.takeWhile Char.isDigit)
        (r.dropWhile Char.isDigit))
    else none
  | [] => none

mutual

/-- One JSON value at the head of the input (no leading whitespace). -/
def parseValue : Nat → List Char → Option (Json × List Char)
  | 0, _ => none
  | fuel + 1, cs =>
    match cs with
    | 'n' :: 'u' :: 'l' :: 'l' :: rest => some (.null, rest)
    | 't' :: 'r' :: 'u' :: 'e' :: rest => some (.bool true, rest)
    | 'f' :: 'a' :: 'l' :: 's' :: 'e' :: rest => some (.bool false, rest)
    | 'N' :: 'a' :: 'N' :: rest => some (.nan, rest)
    | 'I' :: 'n' :: 'f' :: 'i' :: 'n' :: 'i' :: 't' :: 'y' :: rest =>
      some (.infinity false, rest)
    | '-' :: 'I' :: 'n' :: 'f' :: 'i' :: 'n' :: 'i' :: 't' :: 'y' :: rest =>
      some (.infinity true, rest)
    | '"' :: rest => (parseStringBody (fuel + 1) rest []).map
        (fun sv => (.str sv.1, sv.2))
    | '[' :: rest => parseArrayItems fuel (skipWs rest) []
    | '{' :: rest => parseObjItems fuel (skipWs rest) []
    | _ => parseNumber cs

/-- Elements of an array, positioned at a value or at `]` when empty. -/
def parseArrayItems : Nat → List Char → List Json → Option (Json × List Char)
  | 0, _, _ => none
  | fuel + 1, cs, acc =>
    match acc, cs with
    | [], ']' :: rest => some (.arr [], rest)
    | _, _ =>
      match parseValue fuel cs with
      | none => none
      | some (v, rest) =>
        match skipWs rest with
        | ',' :: r => parseArrayItems fuel (skipWs r) (v :: acc)
        | ']' :: r => some (.arr (v :: acc).reverse, r)
        | _ => none

/-- Members of an object, positioned at a `"key"` or at `}` when empty.
Duplicate keys follow Python's dict semantics via `insertPair`. -/
def parseObjItems : Nat → List Char → List (String × Json) →
    Option (Json × List Char)
  | 0, _, _ => none
  | fuel + 1, cs, acc =>
    match acc, cs with
    | [], '}' :: rest => some (.obj [], rest)
    | _, _ =>
      match cs with
      | '"' :: rest =>
        match parseStringBody (fuel + 1) rest [] with
        | none => none
        | some (k, r1) =>
          match skipWs r1 with
          | ':' :: r2 =>
            match parseValue fuel (skipWs r2) with
            | none => none
            | some (v, r3) =>
              let acc2 := insertPair acc k v
              match skipWs r3 with
              | ',' :: r4 => parseObjItems fuel (skipWs r4) acc2
              | '}' :: r4 => some (.obj acc2, r4)
              | _ => none
          | _ => none
      | _ => none

end

/-- `json.loads`: parse a complete document, allowing surrounding
whitespace, rejecting trailing data. -/
def pyJsonLoads (s : String) : Option Json :=
  match parseValue (2 * s.length + 16) (skipWs s.data) with
  | some (v, rest) => if (skipWs rest).isEmpty then some v else none
  | none => none

/-! ### `parse_llm_output` (utils.py 9-20) -/

/-- Index of the first character satisfying `p`. -/
def firstIdx (p : Char → Bool) : List Char → Option Nat
  | [] => none
  | c :: cs => if p c then some 0 else (firstIdx p cs).map (· + 1)

/-- The span matched by `re.search(r'\x7b.*\x7d', text, re.DOTALL)`:
from the first `{` to the last `}`, when the latter comes after the
former (the leftmost match of a greedy `.*` with `DOTALL`). -/
def braceSpan (cs : List Char) : Option (List Char) :=
  match firstIdx (· == '{') cs with
  | none => none
  | some i =>
    match firstIdx (· == '}') cs.reverse with
    | none => none
    | some k =>
      let j := cs.length - 1 - k
      if i < j then some ((cs.drop i).take (j - i + 1)) else none

/-- `parse_llm_output`: extract the brace span and `json.loads` it, else
`json.loads` the stripped whole text; `none` models the `None` returned
when `json.JSONDecodeError` is caught. -/
def parse_llm_output (llm_response : String) : Option Json :=
  match braceSpan llm_response.data with
  | some span => pyJsonLoads (String.mk span)
  | none => pyJsonLoads (pyStrip llm_response)

/-! ### `ProjectPreferences` (models.py 4-16) -/

/-- The `ProjectPreferences` dataclass with its documented defaults
(`__post_init__` turns the `None` default for `custom_folders` into `[]`,
so the model uses `[]` directly). -/
structure ProjectPreferences where
  include_docs : Bool := true
  include_tests : Bool := true
  include_docker : Bool := false
  include_ci_cd : Bool := false
  custom_folders : List String := []
  framework_specific : Bool := true
deriving Repr, DecidableEq

/-- `prefs.__dict__` as a JSON mapping (dataclass field order). -/
def prefsDict (p : ProjectPreferences) : Json :=
  .obj [("include_docs", .bool p.include_docs),
        ("include_tests", .bool p.include_tests),
        ("include_docker", .bool p.include_docker),
        ("include_ci_cd", .bool p.include_ci_cd),
        ("custom_folders", .arr (p.custom_folders.map .str)),
        ("framework_specific", .bool p.framework_specific)]

/-! ### `parse_preferences` (utils.py 154-179) -/

/-- The part of `line` after its first `:` (`line.split(':', 1)[1]`);
only called when a colon is known to be present. -/
def afterFirstColon (line : String) : String :=
  match line.splitOn ":" with
  | [] => ""
  | [_] => ""
  | _ :: rest => String.intercalate ":" rest

/-- The `folder:` / `custom:` line scan of `parse_preferences`. -/
def customFolderLines (lines : List String) : List String :=
  match lines with
  | [] => []
  | line :: rest =>
    let stripped := pyStrip line
    if stripped.startsWith "folder:" || stripped.startsWith "custom:" then
      let folder_name := pyStrip (afterFirstColon line)
      if folder_name.isEmpty then customFolderLines rest
      else folder_name :: customFolderLines rest
    else customFolderLines rest

/-- Does `p` occur as a contiguous run inside `t`? -/
def containsRun (t p : List Char) : Bool :=
  match t with
  | [] => p.isEmpty
  | _ :: rest => p.isPrefixOf t || containsRun rest p

/-- Substring containment (`pattern in text` on Python strings). -/
def pyContains (text pattern : String) : Bool :=
  containsRun text.data pattern.data

/-- `parse_preferences`: keyword detection on the lowercased text plus the
`folder:` / `custom:` line scan; whitespace-only input returns the
dataclass defaults untouched. -/
def parse_preferences (prefs_text : String) : ProjectPreferences :=
  if (pyStrip prefs_text).isEmpty then {}
  else
    let prefs_lower := pyLower prefs_text
    { include_docs :=
        pyContains prefs_lower "docs" || pyContains prefs_lower "documentation"
      include_tests := pyContains prefs_lower "test"
      include_docker := pyContains prefs_lower "docker"
      include_ci_cd :=
        pyContains prefs_lower "ci" || pyContains prefs_lower "github actions"
      custom_folders := customFolderLines (prefs_text.splitOn "\n")
      framework_specific := true }

/-! ### `apply_preferences` (utils.py 22-65) -/

/-- The folder node literal appended for a custom folder. -/
def folderJson (nm : String) : Json :=
  .obj [("type", .str "folder"), ("name", .str nm), ("children", .arr [])]

/-- The file node literal appended for Docker support. -/
def fileJson (nm : String) : Json :=
  .obj [("type", .str "file"), ("name", .str nm)]

/-- The `.github/workflows/ci.yml` scaffold appended for CI/CD support. -/
def githubJson : Json :=
  .obj [("type", .str "folder"), ("name", .str ".github"),
        ("children", .arr [
          .obj [("type", .str "folder"), ("name", .str "workflows"),
                ("children", .arr [
                  .obj [("type", .str "file"), ("name", .str "ci.yml")]])]])]

/-- `any(item.get("name") == nm for item in items)`: short-circuiting, and
raising (`.error`) when a non-mapping item is reached first. -/
def anyNamed (items : List Json) (nm : String) : Except Unit Bool :=
  match items with
  | [] => .ok false
  | item :: rest =>
    match item with
    | .obj kvs =>
      match getKey? kvs "name" with
      | some (.str t) => if t = nm then .ok true else anyNamed rest nm
      | _ => anyNamed rest nm
    | _ => .error ()

/-- The common shape of the custom-folder and Docker loops: for each name,
append `mk name` unless an equally named entry already exists. -/
def addEachIfAbsent (mk : String → Json) (items : List Json) :
    List String → Except Unit (List Json)
  | [] => .ok items
  | f :: fs => do
    let b ← anyNamed items f
    addEachIfAbsent mk (if b then items else items ++ [mk f]) fs

/-- The custom-folder loop: append an empty folder per requested name that
is not already present at the top level. -/
def addCustomFolders (items : List Json) (fs : List String) :
    Except Unit (List Json) :=
  addEachIfAbsent folderJson items fs

/-- The Docker loop: append each missing Docker file node. -/
def addDockerFiles (items : List Json) (fs : List String) :
    Except Unit (List Json) :=
  addEachIfAbsent fileJson items fs

/-- The CI/CD step: append the `.github` scaffold when absent. -/
def addCiCd (items : List Json) : Except Unit (List Json) := do
  let b ← anyNamed items ".github"
  .ok (if b then items else items ++ [githubJson])

/-- All additions `apply_preferences` would try for `p`, in order. -/
def applyPrefsList (items : List Json) (p : ProjectPreferences) :
    Except Unit (List Json) := do
  let l1 ← addCustomFolders items p.custom_folders
  let l2 ← if p.include_docker then
      addDockerFiles l1 ["Dockerfile", "docker-compose.yml", ".dockerignore"]
    else pure l1
  if p.include_ci_cd then addCiCd l2 else pure l2

/-- `apply_preferences`: returns the structure unchanged without
preferences; otherwise reads `structure["structure"]` (raising on a
missing key or non-mapping) and appends the preference-driven nodes.
When that value is not a list, Python raises as soon as an addition is
attempted (iterating a string or dict yields non-mapping items whose
`.get` raises; appending to a non-list raises) and returns the structure
unchanged when no addition is attempted at all. -/
def apply_preferences (s : Json) (prefs : Option ProjectPreferences) :
    Except Unit Json :=
  match prefs with
  | none => .ok s
  | some p =>
    match s with
    | .obj kvs =>
      match getKey? kvs "structure" with
      | some (.arr items) =>
        (applyPrefsList items p).map (fun l => setKey s "structure" (.arr l))
      | some _ =>
        if p.custom_folders.isEmpty && !p.include_docker && !p.include_ci_cd
        then .ok s else .error ()
      | none => .error ()
    | _ => .error ()

/-! ### `json.dumps(..., sort_keys=True)` and `CacheService.make_cache_key`
(services.py 49-57) -/

/-- A lowercase hexadecimal digit. -/
def hexDigitLower (n : Nat) : Char :=
  if n < 10 then Char.ofNat (48 + n) else Char.ofNat (87 + n)

/-- Four lowercase hex digits, as in `json.dumps`'s `\uXXXX` escapes. -/
def hex4Lower (n : Nat) : String :=
  String.mk [hexDigitLower (n / 4096 % 16), hexDigitLower (n / 256 % 16),
             hexDigitLower (n / 16 % 16), hexDigitLower (n % 16)]

/-- One character of a `json.dumps` string literal (`ensure_ascii=True`):
printable ASCII passes through, the short escapes are used where they
exist, everything else becomes `\uXXXX` (with surrogate pairs above the
BMP). -/
def dumpsEscChar (c : Char) : String :=
  if c == '"' then "\\\""
  else if c == '\\' then "\\\\"
  else if c == '\n' then "\\n"
  else if c == '\x0d' then "\\r"
  else if c == '\t' then "\\t"
  else if c == '\x08' then "\\b"
  else if c == '\x0c' then "\\f"
  else if c.toNat < 0x20 || c.toNat ≥ 0x7f then
    if c.toNat ≤ 0xffff then "\\u" ++ hex4Lower c.toNat
    else
      "\\u" ++ hex4Lower (0xd800 + (c.toNat - 0x10000) / 0x400) ++
      "\\u" ++ hex4Lower (0xdc00 + (c.toNat - 0x10000) % 0x400)
  else String.singleton c

/-- A `json.dumps` string literal. -/
def dumpsStr (s : String) : String :=
  "\"" ++ String.join (s.data.map dumpsEscChar) ++ "\""

/-- Object members sorted by key (`sort_keys=True`); keys are unique, so
which sort is used is immaterial. -/
def sortPairsByKey (kvs : List (String × Json)) : List (String × Json) :=
  kvs.insertionSort (fun a b => a.1 ≤ b.1)

/-- `json.dumps(value, sort_keys=True)` with the default separators
`", "` and `": "`, given enough fuel.  Numbers other than plain integers
are rendered as mantissa/exponent — the pipeline only ever serializes
strings, booleans and lists of strings, so this never matters. -/
def dumpsFuel : Nat → Json → String
  | 0, _ => ""
  | fuel + 1, j =>
    match j with
    | .null => "null"
    | .bool b => if b then "true" else "false"
    | .nan => "NaN"
    | .infinity negative => if negative then "-Infinity" else "Infinity"
    | .num m e => if e = 0 then toString m else toString m ++ "e" ++ toString e
    | .str s => dumpsStr s
    | .arr items =>
      "[" ++ String.intercalate ", " (items.map (dumpsFuel fuel)) ++ "]"
    | .obj kvs =>
      "\x7b" ++ String.intercalate ", " ((sortPairsByKey kvs).map
        (fun kv => dumpsStr kv.1 ++ ": " ++ dumpsFuel fuel kv.2)) ++ "\x7d"

mutual

/-- Number of constructors in a JSON value; strictly bounds nesting depth. -/
def jsonSize : Json → Nat
  | .arr items => jsonSizeList items + 1
  | .obj kvs => jsonSizePairs kvs + 1
  | _ => 1

/-- Total size of a list of JSON values. -/
def jsonSizeList : List Json → Nat
  | [] => 0
  | j :: rest => jsonSize j + jsonSizeList rest

/-- Total size of the values of an association list. -/
def jsonSizePairs : List (String × Json) → Nat
  | [] => 0
  | kv :: rest => jsonSize kv.2 + jsonSizePairs rest

end

/-- `json.dumps(value, sort_keys=True)`; `jsonSize` strictly bounds the
nesting depth, so the fuel never runs out. -/
def dumps (j : Json) : String := dumpsFuel (jsonSize j) j

/-- `tech.lower().strip()`, the per-entry normalization of
`make_cache_key`. -/
def normTech (tech : String) : String := pyStrip (pyLower tech)

/-- Python's `sorted` on strings (code-point lexicographic).  `sorted`
produces the unique `≤`-sorted permutation of its input, which
`List.insertionSort` also produces. -/
def pySortedStrings (l : List String) : List String :=
  l.insertionSort (· ≤ ·)

/-- `CacheService.make_cache_key`.  The MD5 hex digest applied to the
canonical serialization is an injected parameter `digest` (a fixed
deterministic function of its input string, which is all the cache-key
properties depend on). -/
def make_cache_key (digest : String → String) (project_desc : String)
    (tech_stack : List String) (prefs : Option Json) : String :=
  let prefsJ : Json :=
    match prefs with
    | some p => if jsonTruthy p then p else .obj []
    | none => .obj []
  let cache_data : Json :=
    .obj [("project_desc", .str (pyStrip (pyLower project_desc))),
          ("tech_stack", .arr ((pySortedStrings (tech_stack.map normTech)).map .str)),
          ("prefs", prefsJ)]
  digest (dumps cache_data)

/-! ### `structure_to_tree` (utils.py 126-152) -/

/-- Python `str(b)` for booleans. -/
def pyBool (b : Bool) : String := if b then "True" else "False"

/-- Python `str()` of a JSON-derived value, as interpolated by f-strings.
Containers are approximated (their repr is never reached: every claim
renders string names only). -/
def pyStrOf (j : Json) : String :=
  match j with
  | .str s => s
  | .bool b => pyBool b
  | .null => "None"
  | .num m e => if e = 0 then toString m else toString m ++ "e" ++ toString e
  | .nan => "nan"
  | .infinity negative => if negative then "-inf" else "inf"
  | .arr _ => "[...]"
  | .obj _ => "\x7b...\x7d"

/-- Python iteration over a JSON-derived value (`for item in x`): lists
yield their elements, strings their characters (as 1-character strings),
dicts their keys; anything else raises `TypeError`. -/
def pyIter : Json → Except Unit (List Json)
  | .arr items => .ok items
  | .str s => .ok (s.data.map (fun c => .str (String.singleton c)))
  | .obj kvs => .ok (kvs.map (fun kv => .str kv.1))
  | _ => .error ()

/-- The `_build_tree` inner function: one line per entry, `├── ` for
non-last siblings, `└── ` for the last, folders suffixed `/` and recursed
into when their `children` value is truthy.  A non-mapping entry raises on
`.get`. -/
def buildTreeLines : Nat → List Json → String → Except Unit (List String)
  | 0, _, _ => .error ()
  | _ + 1, [], _ => .ok []
  | fuel + 1, item :: rest, current_indent =>
    let is_last := rest.isEmpty
    let pre := if is_last then "└── " else "├── "
    match item with
    | .obj kvs =>
      let nm := match getKey? kvs "name" with
        | some v => pyStrOf v
        | none => "unnamed"
      if (getKey? kvs "type").any (fun t => isStrEq t "folder") then do
        let childLines ←
          match getKey? kvs "children" with
          | some ch =>
            if jsonTruthy ch then do
              let childItems ← pyIter ch
              buildTreeLines fuel childItems
                (current_indent ++ (if is_last then "    " else "│   "))
            else pure []
          | none => pure []
        let restLines ← buildTreeLines fuel rest current_indent
        .ok ((current_indent ++ pre ++ nm ++ "/") :: childLines ++ restLines)
      else do
        let restLines ← buildTreeLines fuel rest current_indent
        .ok ((current_indent ++ pre ++ nm) :: restLines)
    | _ => .error ()

/-- `structure_to_tree`: `"Invalid structure"` for a falsy argument, else
the root name plus `/` followed by the rendered top-level sequence.
`.error ()` models the exceptions raised for a truthy non-mapping argument
or a missing `name` key. -/
def structure_to_tree (s : Json) : Except Unit String :=
  if !(jsonTruthy s) then .ok "Invalid structure"
  else
    match s with
    | .obj kvs =>
      match getKey? kvs "name" with
      | none => .error ()
      | some nameV =>
        let firstLine := pyStrOf nameV ++ "/"
        match getKey? kvs "structure" with
        | none => .ok firstLine
        | some v => do
          let items ← pyIter v
          let lines ← buildTreeLines (2 * jsonSize s + 2) items ""
          .ok (String.intercalate "\n" (firstLine :: lines))
    | _ => .error ()

/-! ### `build_prompt` (utils.py 67-124) -/

/-- A catalog entry: description, technology tags and canonical structure
(`get_example_repos` in models.py). -/
structure ExampleRepo where
  description : String
  tech_stack : List String
  struct : Json
deriving Repr

/-- `f"{project_desc} {' '.join(tech_stack)}"`. -/
def queryText (project_desc : String) (tech_stack : List String) : String :=
  project_desc ++ " " ++ String.intercalate " " tech_stack

/-- `f"{repo['description']} {' '.join(repo['tech_stack'])}"`. -/
def repoText (r : ExampleRepo) : String :=
  r.description ++ " " ++ String.intercalate " " r.tech_stack

/-- The `enumerate(similar_repos, 1)` loop of `build_prompt`. -/
def similarExampleLines : Nat → List ExampleRepo → String
  | _, [] => ""
  | i, r :: rest =>
    "\nExample " ++ toString i ++ ":\n" ++
    "Description: " ++ r.description ++ "\n" ++
    "Tech Stack: " ++ String.intercalate ", " r.tech_stack ++ "\n" ++
    similarExampleLines (i + 1) rest

/-- `build_prompt`: the exact instruction text assembled for the
generation collaborator. -/
def build_prompt (project_desc : String) (tech_stack : List String)
    (prefs : Option ProjectPreferences) (similar_repos : List ExampleRepo) :
    String :=
  let similar_examples :=
    if similar_repos.isEmpty then ""
    else "\n\nHere are some similar project examples for reference:\n" ++
      similarExampleLines 1 similar_repos
  let preferences_text :=
    match prefs with
    | none => ""
    | some p =>
      "\nAdditional Requirements:\n" ++
      "- Include documentation folder: " ++ pyBool p.include_docs ++ "\n" ++
      "- Include tests folder: " ++ pyBool p.include_tests ++ "\n" ++
      "- Include Docker support: " ++ pyBool p.include_docker ++ "\n" ++
      "- Include CI/CD: " ++ pyBool p.include_ci_cd ++ "\n" ++
      "- Custom folders: " ++
        (if p.custom_folders.isEmpty then "None"
         else String.intercalate ", " p.custom_folders) ++ "\n" ++
      "- Framework-specific structure: " ++ pyBool p.framework_specific ++ "\n"
  "You are an expert software architect. Create a standardized project directory structure based on the following requirements:\n\nProject Description: "
    ++ project_desc
    ++ "\nTech Stack: " ++ String.intercalate ", " tech_stack ++ "\n"
    ++ preferences_text ++ "\n" ++ similar_examples
    ++ "\n\nGenerate a comprehensive directory structure that follows best practices for the given tech stack. The output must be a valid JSON object with the following exact schema:\n\n\x7b\n  \"name\": \"project-name\",\n  \"structure\": [\n    \x7b\"type\": \"file\", \"name\": \"README.md\"\x7d,\n    \x7b\"type\": \"file\", \"name\": \".gitignore\"\x7d,\n    \x7b\"type\": \"folder\", \"name\": \"src\", \"children\": [\n      \x7b\"type\": \"file\", \"name\": \"main.py\"\x7d,\n      \x7b\"type\": \"folder\", \"name\": \"utils\", \"children\": []\x7d\n    ]\x7d\n  ]\n\x7d\n\nRules:\n1. Always include README.md and .gitignore\n2. Use appropriate file extensions for the tech stack\n3. Follow language/framework conventions\n4. Include common configuration files\n5. Structure should be logical and scalable\n6. Use lowercase names with hyphens or underscores\n7. Include only the JSON, no additional text or explanations\n\nGenerate the directory structure now:"

/-! ### `SimilarityService.find_similar_repos` (services.py 84-107) -/

/-- One step of Python's stable descending sort
(`list.sort(key=..., reverse=True)`): insert `x` before the first element
whose key is `≤` its own, so earlier elements win ties. -/
def insertDescStable {α : Type} (x : ℚ × α) :
    List (ℚ × α) → List (ℚ × α)
  | [] => [x]
  | y :: ys => if x.1 < y.1 then y :: insertDescStable x ys else x :: y :: ys

/-- Stable sort, descending by score: the behavior of
`similarities.sort(key=lambda x: x[0], reverse=True)`. -/
def sortDescStable {α : Type} : List (ℚ × α) → List (ℚ × α)
  | [] => []
  | x :: xs => insertDescStable x (sortDescStable xs)

/-- The `similarities` list: catalog entries paired with their scores, in
catalog order. -/
def similarityList (sim : String → String → ℚ) (project_desc : String)
    (tech_stack : List String) (example_repos : List ExampleRepo) :
    List (ℚ × ExampleRepo) :=
  example_repos.map (fun r => (sim (queryText project_desc tech_stack) (repoText r), r))

/-- `SimilarityService.find_similar_repos`.  The sentence-transformer
embedding plus cosine similarity is the injected scoring function `simFn`
(with `none` modelling an unavailable model, which short-circuits to
`[]`); scores live in `ℚ`, a stand-in linear order for the float cosine
values. -/
def find_similar_repos (simFn : Option (String → String → ℚ))
    (project_desc : String) (tech_stack : List String)
    (example_repos : List ExampleRepo) (top_k : Nat) : List ExampleRepo :=
  match simFn with
  | none => []
  | some sim =>
    let similarities := similarityList sim project_desc tech_stack example_repos
    ((sortDescStable similarities).take top_k).map Prod.snd

/-! ### `CacheService` (services.py 43-72) -/

/-- One record of the `structures` table. -/
structure CacheEntry where
  cache_key : String
  project_id : String
  struct : Json
  timestamp : String
deriving Repr

/-- `CacheService.get_cached_structure`: TinyDB `search` returns matches
in insertion order; the code takes the first (`[0]`) or `None`. -/
def get_cached_structure (db : List CacheEntry) (key : String) : Option Json :=
  ((db.filter (fun e => e.cache_key == key)).head?).map (fun e => e.struct)

/-- `CacheService.cache_structure`: TinyDB `insert` appends a record. -/
def cache_structure (db : List CacheEntry) (key project_id : String)
    (s : Json) (now : String) : List CacheEntry :=
  db ++ [⟨key, project_id, s, now⟩]

/-! ### `DirectoryStructureAgent.suggest_structure` (agent.py 33-93) -/

/-- Outcome of one `suggest_structure` call: the returned value, the cache
database afterwards, and how many times the generation collaborator, the
output parser and the validator were invoked (instrumentation of the
control flow). -/
structure SuggestResult where
  result : Option Json
  db : List CacheEntry
  llmCalls : Nat
  parseCalls : Nat
  validateCalls : Nat
deriving Repr

/-- Truthiness of `cached_result` (`if cached_result:`). -/
def cachedTruthy : Option Json → Bool
  | none => false
  | some c => jsonTruthy c

/-- The prompt built on a cache miss (steps 2-3 of the orchestrator):
rank examples with `top_k = 2`, then assemble the instruction text. -/
def suggestPrompt (simFn : Option (String → String → ℚ))
    (example_repos : List ExampleRepo) (project_desc : String)
    (tech_stack : List String) (prefs : Option ProjectPreferences) : String :=
  build_prompt project_desc tech_stack prefs
    (find_similar_repos simFn project_desc tech_stack example_repos 2)

/-- `DirectoryStructureAgent.suggest_structure`.  External collaborators
are injected: `digest` (MD5 hex), `llm` (`LLMService.generate_structure`,
`none` on API failure), `simFn` (sentence-model availability and scoring)
and `example_repos` (the catalog).  The surrounding `try`/`except` turns
any exception from validation or preference application into a `None`
return, which the `Except.error` branches reproduce. -/
def suggest_structure (digest : String → String) (llm : String → Option String)
    (simFn : Option (String → String → ℚ)) (example_repos : List ExampleRepo)
    (db : List CacheEntry) (project_id project_desc : String)
    (tech_stack : List String) (prefs : Option ProjectPreferences)
    (now : String) : SuggestResult :=
  let cache_key := make_cache_key digest project_desc tech_stack (prefs.map prefsDict)
  let cached_result := get_cached_structure db cache_key
  if cachedTruthy cached_result then
    { result := cached_result, db := db,
      llmCalls := 0, parseCalls := 0, validateCalls := 0 }
  else
    let prompt := suggestPrompt simFn example_repos project_desc tech_stack prefs
    match llm prompt with
    | none => ⟨none, db, 1, 0, 0⟩
    | some llm_response =>
      if llm_response.isEmpty then ⟨none, db, 1, 0, 0⟩
      else
        match parse_llm_output llm_response with
        | none => ⟨none, db, 1, 1, 0⟩
        | some st =>
          if !(jsonTruthy st) then ⟨none, db, 1, 1, 0⟩
          else
            match validate_structure st with
            | .error _ => ⟨none, db, 1, 1, 1⟩
            | .ok false => ⟨none, db, 1, 1, 1⟩
            | .ok true =>
              match apply_preferences st prefs with
              | .error _ => ⟨none, db, 1, 1, 1⟩
              | .ok s2 =>
                ⟨some s2, cache_structure db cache_key project_id s2 now, 1, 1, 1⟩

/-- Does `item` carry exactly the name `nm` (the membership test performed
by the `any(item.get("name") == nm ...)` checks)? -/
def namedB (nm : String) (item : Json) : Bool :=
  match item with
  | .obj kvs =>
    match getKey? kvs "name" with
    | some (.str t) => t == nm
    | _ => false
  | _ => false

/-- A candidate satisfying the spec's membership conditions whose top-level
sequence also contains a bare number (a non-mapping element). -/
def c1Counter : Json :=
  .obj [("name", .str "x"), ("structure", .arr [
    .obj [("type", .str "file"), ("name", .str "README.md")],
    .obj [("type", .str "file"), ("name", .str ".gitignore")],
    .num 3 0])]

/-- A minimal validated structure used by several witnesses. -/
def sampleValid : Json :=
  .obj [("name", .str "x"), ("structure", .arr [
    .obj [("type", .str "file"), ("name", .str "README.md")],
    .obj [("type", .str "file"), ("name", .str ".gitignore")]])]

/-- `sampleValid` after applying `include_docker = true` preferences. -/
def sampleDockered : Json :=
  .obj [("name", .str "x"), ("structure", .arr [
    .obj [("type", .str "file"), ("name", .str "README.md")],
    .obj [("type", .str "file"), ("name", .str ".gitignore")],
    .obj [("type", .str "file"), ("name", .str "Dockerfile")],
    .obj [("type", .str "file"), ("name", .str "docker-compose.yml")],
    .obj [("type", .str "file"), ("name", .str ".dockerignore")]])]

/-- A generation response whose brace span parses to `sampleValid`. -/
def sampleResponse : String :=
  "\x7b\"name\": \"x\", \"structure\": [\x7b\"type\": \"file\", \"name\": \"README.md\"\x7d, \x7b\"type\": \"file\", \"name\": \".gitignore\"\x7d]\x7d"

/-- The structure of the spec's tree-rendering example. -/
def demoTree : Json :=
  .obj [("name", .str "app"), ("structure", .arr [
    .obj [("type", .str "file"), ("name", .str "a.txt")],
    .obj [("type", .str "folder"), ("name", .str "src"), ("children", .arr [
      .obj [("type", .str "file"), ("name", .str "b.txt")]])]])]

/-! ## Properties of the validator (claim C1) -/

theorem collectFileNames_allObj {items : List Json}
    (h : items.all isObjB = true) : ∃ names, collectFileNames items = .ok names := by
  induction items with
  | nil => exact ⟨[], rfl⟩
  | cons item rest ih =>
    simp only [List.all_cons, Bool.and_eq_true] at h
    obtain ⟨names, hn⟩ := ih h.2
    cases item with
    | obj kvs =>
      by_cases hc : ((getKey? kvs "type").any fun t => isStrEq t "file") = true
      · exact ⟨(getKey? kvs "name").getD (.str "") :: names,
          by simp [collectFileNames, hn, hc]⟩
      · exact ⟨names, by simp [collectFileNames, hn, hc]⟩
    | null => simp [isObjB] at h
    | bool b => simp [isObjB] at h
    | num m e => simp [isObjB] at h
    | nan => simp [isObjB] at h
    | infinity b => simp [isObjB] at h
    | str s => simp [isObjB] at h
    | arr l => simp [isObjB] at h

theorem collectFileNames_ok_imp_allObj {items : List Json} {names : List Json}
    (h : collectFileNames items = .ok names) : items.all isObjB = true := by
  induction items generalizing names with
  | nil => rfl
  | cons item rest ih =>
    cases item with
    | obj kvs =>
      cases hr : collectFileNames rest with
      | error e => simp [collectFileNames, hr] at h
      | ok names' =>
        simp only [List.all_cons, isObjB, Bool.true_and]
        exact ih hr
    | null => exact absurd h (by simp [collectFileNames])
    | bool b => exact absurd h (by simp [collectFileNames])
    | num m e => exact absurd h (by simp [collectFileNames])
    | nan => exact absurd h (by simp [collectFileNames])
    | infinity b => exact absurd h (by simp [collectFileNames])
    | str s => exact absurd h (by simp [collectFileNames])
    | arr l => exact absurd h (by simp [collectFileNames])

theorem collectFileNames_any (nm : String) {items names : List Json}
    (hnm : ¬nm = "") (h : collectFileNames items = .ok names) :
    (names.any fun n => isStrEq n nm) = items.any (isFileNamed nm) := by
  induction items generalizing names with
  | nil =>
    simp only [collectFileNames] at h
    cases h; rfl
  | cons item rest ih =>
    cases item with
    | obj kvs =>
      cases hr : collectFileNames rest with
      | error e => simp [collectFileNames, hr] at h
      | ok names' =>
        simp only [collectFileNames, hr] at h
        by_cases hc : ((getKey? kvs "type").any fun t => isStrEq t "file") = true
        · rw [if_pos hc] at h
          cases h
          simp only [List.any_cons, isFileNamed, hc, Bool.true_and, ih hr]
          congr 1
          cases hk : getKey? kvs "name" with
          | none =>
            simp only [hk, Option.getD_none, Option.any_none, isStrEq]
            exact decide_eq_false (fun h => hnm h.symm)
          | some v => simp [hk]
        · rw [if_neg hc] at h
          cases h
          rw [ih hr]
          simp only [List.any_cons, isFileNamed]
          rw [Bool.eq_false_iff.mpr hc]
          simp
    | null => exact absurd h (by simp [collectFileNames])
    | bool b => exact absurd h (by simp [collectFileNames])
    | num m e => exact absurd h (by simp [collectFileNames])
    | nan => exact absurd h (by simp [collectFileNames])
    | infinity b => exact absurd h (by simp [collectFileNames])
    | str s => exact absurd h (by simp [collectFileNames])
    | arr l => exact absurd h (by simp [collectFileNames])

/-- Claim C1 (amended): `validate_structure` returns `True` if and only if
the candidate is a mapping containing both a `name` and a `structure` key,
the `structure` value is a sequence all of whose elements are mappings, and
the sequence contains a top-level File node named exactly `README.md` and
one named exactly `.gitignore`; moreover, whenever every element of the
top-level sequence is a mapping the function returns normally with exactly
the spec's verdict (so candidates whose required files appear only nested
inside folders get `False`).  The literal claim's iff fails only because a
non-mapping element makes the code raise instead of returning. -/
theorem validate_structure_char (s : Json) :
    (validate_structure s = .ok true ↔
      (specValidCandidate s = true ∧ topItemsAllObj s = true)) ∧
    (topItemsAllObj s = true →
      validate_structure s = .ok (specValidCandidate s)) := by
  cases s with
  | obj kvs =>
    cases hn : getKey? kvs "name" with
    | none =>
      refine ⟨?_, fun _ => ?_⟩ <;>
        simp [validate_structure, specValidCandidate, hn]
    | some nv =>
      cases hs : getKey? kvs "structure" with
      | none =>
        refine ⟨?_, fun _ => ?_⟩ <;>
          simp [validate_structure, specValidCandidate, hn, hs]
      | some sv =>
        cases sv with
        | arr items =>
          cases hc : collectFileNames items with
          | error e =>
            have hall : ¬items.all isObjB = true := by
              intro hA
              obtain ⟨names, hok⟩ := collectFileNames_allObj hA
              rw [hok] at hc
              cases hc
            refine ⟨⟨fun hv => ?_, fun hST => ?_⟩, fun hT => ?_⟩
            · exact absurd hv (by simp [validate_structure, hn, hs, hc, Except.map])
            · exact absurd (by simpa [topItemsAllObj, hs] using hST.2) hall
            · exact absurd (by simpa [topItemsAllObj, hs] using hT) hall
          | ok names =>
            have hA := collectFileNames_ok_imp_allObj hc
            have h1 := collectFileNames_any "README.md" (by decide) hc
            have h2 := collectFileNames_any ".gitignore" (by decide) hc
            constructor
            · simp [validate_structure, specValidCandidate, topItemsAllObj,
                hn, hs, hc, h1, h2, hA, Except.map]
            · intro _
              simp [validate_structure, specValidCandidate, hn, hs, hc, h1, h2,
                Except.map]
        | null =>
          refine ⟨?_, fun _ => ?_⟩ <;>
            simp [validate_structure, specValidCandidate, hn, hs]
        | bool b =>
          refine ⟨?_, fun _ => ?_⟩ <;>
            simp [validate_structure, specValidCandidate, hn, hs]
        | num m e =>
          refine ⟨?_, fun _ => ?_⟩ <;>
            simp [validate_structure, specValidCandidate, hn, hs]
        | nan =>
          refine ⟨?_, fun _ => ?_⟩ <;>
            simp [validate_structure, specValidCandidate, hn, hs]
        | infinity b =>
          refine ⟨?_, fun _ => ?_⟩ <;>
            simp [validate_structure, specValidCandidate, hn, hs]
        | str t =>
          refine ⟨?_, fun _ => ?_⟩ <;>
            simp [validate_structure, specValidCandidate, hn, hs]
        | obj kvs' =>
          refine ⟨?_, fun _ => ?_⟩ <;>
            simp [validate_structure, specValidCandidate, hn, hs]
  | null =>
    refine ⟨?_, fun _ => ?_⟩ <;> simp [validate_structure, specValidCandidate]
  | bool b =>
    refine ⟨?_, fun _ => ?_⟩ <;> simp [validate_structure, specValidCandidate]
  | num m e =>
    refine ⟨?_, fun _ => ?_⟩ <;> simp [validate_structure, specValidCandidate]
  | nan =>
    refine ⟨?_, fun _ => ?_⟩ <;> simp [validate_structure, specValidCandidate]
  | infinity b =>
    refine ⟨?_, fun _ => ?_⟩ <;> simp [validate_structure, specValidCandidate]
  | str t =>
    refine ⟨?_, fun _ => ?_⟩ <;> simp [validate_structure, specValidCandidate]
  | arr l =>
    refine ⟨?_, fun _ => ?_⟩ <;> simp [validate_structure, specValidCandidate]

/-- Witness for the amended claim C1 at a concrete candidate. -/
theorem validate_structure_char_witness :
    validate_structure (Json.obj [("name", .str "x"), ("structure", .arr [])]) =
      .ok (specValidCandidate
        (Json.obj [("name", .str "x"), ("structure", .arr [])])) :=
  (validate_structure_char _).2 (by rfl)

/-- Claim C1 as literally stated is false at `c1Counter`: the candidate is
a mapping with `name` and `structure` keys, its top-level sequence contains
File nodes named `README.md` and `.gitignore`, yet `validate_structure`
does not return `True` — the loop raises `AttributeError` on the
non-mapping element (`.error ()`), so the claimed equivalence fails. -/
theorem validate_structure_iff_refuted :
    ¬(validate_structure c1Counter = .ok true ↔
       specValidCandidate c1Counter = true) := by
  intro h
  have h2 : specValidCandidate c1Counter = true := by rfl
  have h3 : validate_structure c1Counter = .ok true := h.mpr h2
  have h4 : validate_structure c1Counter = .error () := by rfl
  rw [h4] at h3
  exact Except.noConfusion h3

/-! ## Properties of the cache key (claim C3) -/

theorem pySortedStrings_perm_eq {l1 l2 : List String} (h : l1.Perm l2) :
    pySortedStrings l1 = pySortedStrings l2 := by
  have ha : IsAntisymm String (· ≤ ·) := ⟨fun a b h1 h2 => le_antisymm h1 h2⟩
  exact List.eq_of_perm_of_sorted
    ((List.perm_insertionSort _ l1).trans
      (h.trans (List.perm_insertionSort _ l2).symm))
    (List.sorted_insertionSort _ l1) (List.sorted_insertionSort _ l2)

/-- Claim C3: `make_cache_key` is invariant under reordering, case changes
and surrounding whitespace of the tech-stack entries — whenever the two
stacks agree as multisets after per-entry lowercasing and stripping, the
derived keys coincide, for every description, preferences value and digest
function. -/
theorem make_cache_key_techstack_invariant
    (digest : String → String) (project_desc : String) (prefs : Option Json)
    (l1 l2 : List String) (h : (l1.map normTech).Perm (l2.map normTech)) :
    make_cache_key digest project_desc l1 prefs =
      make_cache_key digest project_desc l2 prefs := by
  simp only [make_cache_key]
  rw [pySortedStrings_perm_eq h]

/-- Witness for claim C3 at the spec's own example stacks. -/
theorem make_cache_key_techstack_invariant_witness :
    make_cache_key id "web app" ["React", "node.js"] none =
      make_cache_key id "web app" ["Node.js", "react"] none :=
  make_cache_key_techstack_invariant id "web app" none _ _ (by decide)

/-! ## Properties of preference application (claims C5, C6) -/

theorem except_bind_ok {α β : Type} (a : α) (g : α → Except Unit β) :
    (do let b ← Except.ok a; g b) = g a := rfl

theorem anyNamed_eq_of_allObj {items : List Json} (nm : String)
    (h : items.all isObjB = true) :
    anyNamed items nm = .ok (items.any (namedB nm)) := by
  induction items with
  | nil => rfl
  | cons item rest ih =>
    simp only [List.all_cons, Bool.and_eq_true] at h
    cases item with
    | obj kvs =>
      simp only [anyNamed, namedB, List.any_cons]
      cases hk : getKey? kvs "name" with
      | none => simp [ih h.2]
      | some v =>
        cases v with
        | str t =>
          by_cases ht : t = nm
          · simp [ht]
          · have : (t == nm) = false := by
              exact decide_eq_false ht
            simp [this, ih h.2, ht]
        | null => simp [ih h.2]
        | bool b => simp [ih h.2]
        | num m e => simp [ih h.2]
        | nan => simp [ih h.2]
        | infinity b => simp [ih h.2]
        | arr l => simp [ih h.2]
        | obj kvs' => simp [ih h.2]
    | null => simp [isObjB] at h
    | bool b => simp [isObjB] at h
    | num m e => simp [isObjB] at h
    | nan => simp [isObjB] at h
    | infinity b => simp [isObjB] at h
    | str t => simp [isObjB] at h
    | arr l => simp [isObjB] at h

theorem any_append_left {p : Json → Bool} {l1 : List Json} (l2 : List Json)
    (h : l1.any p = true) : (l1 ++ l2).any p = true := by
  simp only [List.any_append, h, Bool.true_or]

theorem namedB_mk_folder (nm : String) : namedB nm (folderJson nm) = true := by
  simp [namedB, folderJson, getKey?]

theorem namedB_mk_file (nm : String) : namedB nm (fileJson nm) = true := by
  simp [namedB, fileJson, getKey?]

theorem namedB_github : namedB ".github" githubJson = true := by
  simp [namedB, githubJson, getKey?]

theorem addEachIfAbsent_spec (mk : String → Json)
    (hobj : ∀ nm, isObjB (mk nm) = true)
    (hname : ∀ nm, namedB nm (mk nm) = true) :
    ∀ (fs : List String) (items : List Json), items.all isObjB = true →
      ∃ adds, addEachIfAbsent mk items fs = .ok (items ++ adds) ∧
        (items ++ adds).all isObjB = true ∧
        ∀ f ∈ fs, (items ++ adds).any (namedB f) = true := by
  intro fs
  induction fs with
  | nil =>
    intro items h
    exact ⟨[], by simp [addEachIfAbsent], by simpa using h, by simp⟩
  | cons f fs ih =>
    intro items h
    by_cases hb : items.any (namedB f) = true
    · obtain ⟨adds, heq, hall, hmem⟩ := ih items h
      refine ⟨adds, ?_, hall, ?_⟩
      · simp [addEachIfAbsent, anyNamed_eq_of_allObj f h, hb, except_bind_ok, heq]
      · intro g hg
        rcases List.mem_cons.mp hg with rfl | hg'
        · exact any_append_left adds hb
        · exact hmem g hg'
    · have hall' : (items ++ [mk f]).all isObjB = true := by
        simp [List.all_append, h, hobj f]
      obtain ⟨adds, heq, hall, hmem⟩ := ih (items ++ [mk f]) hall'
      refine ⟨[mk f] ++ adds, ?_, by simpa [List.append_assoc] using hall, ?_⟩
      · have hb' : items.any (namedB f) = false := by
          simpa using hb
        simp [addEachIfAbsent, anyNamed_eq_of_allObj f h, hb', except_bind_ok,
          heq, List.append_assoc]
      · intro g hg
        rcases List.mem_cons.mp hg with rfl | hg'
        · rw [← List.append_assoc]
          exact any_append_left adds (by simp [List.any_append, hname g])
        · simpa [List.append_assoc] using hmem g hg'

theorem addEachIfAbsent_noop (mk : String → Json) :
    ∀ (fs : List String) (items : List Json), items.all isObjB = true →
      (∀ f ∈ fs, items.any (namedB f) = true) →
      addEachIfAbsent mk items fs = .ok items := by
  intro fs
  induction fs with
  | nil => intro items _ _; rfl
  | cons f fs ih =>
    intro items h hall
    have hb : items.any (namedB f) = true := hall f (List.mem_cons_self f fs)
    simp [addEachIfAbsent, anyNamed_eq_of_allObj f h, hb, except_bind_ok,
      ih items h (fun g hg => hall g (List.mem_cons_of_mem f hg))]

theorem addCiCd_spec {items : List Json} (h : items.all isObjB = true) :
    ∃ adds, addCiCd items = .ok (items ++ adds) ∧
      (items ++ adds).all isObjB = true ∧
      (items ++ adds).any (namedB ".github") = true := by
  by_cases hb : items.any (namedB ".github") = true
  · exact ⟨[], by simp [addCiCd, anyNamed_eq_of_allObj _ h, hb, except_bind_ok],
      by simpa using h, by simpa using hb⟩
  · have hb' : items.any (namedB ".github") = false := by simpa using hb
    refine ⟨[githubJson],
      by simp [addCiCd, anyNamed_eq_of_allObj _ h, hb', except_bind_ok], ?_, ?_⟩
    · simp [List.all_append, h, isObjB, githubJson]
    · simp [List.any_append, namedB_github]

theorem addCiCd_noop {items : List Json} (h : items.all isObjB = true)
    (hb : items.any (namedB ".github") = true) : addCiCd items = .ok items := by
  simp [addCiCd, anyNamed_eq_of_allObj _ h, hb, except_bind_ok]

/-- The Docker file names appended by `apply_preferences`. -/
theorem applyPrefsList_spec (p : ProjectPreferences) {items : List Json}
    (h : items.all isObjB = true) :
    ∃ adds, applyPrefsList items p = .ok (items ++ adds) ∧
      (items ++ adds).all isObjB = true ∧
      (∀ f ∈ p.custom_folders, (items ++ adds).any (namedB f) = true) ∧
      (p.include_docker = true →
        ∀ f ∈ ["Dockerfile", "docker-compose.yml", ".dockerignore"],
          (items ++ adds).any (namedB f) = true) ∧
      (p.include_ci_cd = true →
        (items ++ adds).any (namedB ".github") = true) := by
  obtain ⟨a1, h1, hall1, hmem1⟩ :=
    addEachIfAbsent_spec folderJson (fun nm => rfl) namedB_mk_folder
      p.custom_folders items h
  by_cases hd : p.include_docker = true
  · obtain ⟨a2, h2, hall2, hmem2⟩ :=
      addEachIfAbsent_spec fileJson (fun nm => rfl) namedB_mk_file
        ["Dockerfile", "docker-compose.yml", ".dockerignore"] (items ++ a1) hall1
    by_cases hc : p.include_ci_cd = true
    · obtain ⟨a3, h3, hall3, hg3⟩ := addCiCd_spec hall2
      have h2x : addEachIfAbsent fileJson (items ++ a1)
          ["Dockerfile", "docker-compose.yml", ".dockerignore"] =
          .ok (items ++ (a1 ++ a2)) := by
        simpa [List.append_assoc] using h2
      have h3x : addCiCd (items ++ (a1 ++ a2)) =
          .ok (items ++ (a1 ++ (a2 ++ a3))) := by
        simpa [List.append_assoc] using h3
      refine ⟨a1 ++ a2 ++ a3, ?_, ?_, ?_, ?_, ?_⟩
      · simp [applyPrefsList, addCustomFolders, addDockerFiles, h1, hd, hc,
          except_bind_ok, h2x, h3x, List.append_assoc]
      · simpa [List.append_assoc] using hall3
      · intro f hf
        have := any_append_left (a2 ++ a3) (any_append_left a2 (hmem1 f hf))
        simpa [List.append_assoc] using this
      · intro _ f hf
        have := any_append_left a3 (hmem2 f hf)
        simpa [List.append_assoc] using this
      · intro _
        simpa [List.append_assoc] using hg3
    · have hc' : p.include_ci_cd = false := by simpa using hc
      have h2x : addEachIfAbsent fileJson (items ++ a1)
          ["Dockerfile", "docker-compose.yml", ".dockerignore"] =
          .ok (items ++ (a1 ++ a2)) := by
        simpa [List.append_assoc] using h2
      refine ⟨a1 ++ a2, ?_, ?_, ?_, ?_, ?_⟩
      · simp [applyPrefsList, addCustomFolders, addDockerFiles, h1, hd, hc',
          except_bind_ok, h2x, List.append_assoc]
      · simpa [List.append_assoc] using hall2
      · intro f hf
        have := any_append_left a2 (hmem1 f hf)
        simpa [List.append_assoc] using this
      · intro _ f hf
        simpa [List.append_assoc] using hmem2 f hf
      · intro hcc; rw [hc'] at hcc; cases hcc
  · have hd' : p.include_docker = false := by simpa using hd
    by_cases hc : p.include_ci_cd = true
    · obtain ⟨a3, h3, hall3, hg3⟩ := addCiCd_spec hall1
      have h3x : addCiCd (items ++ a1) = .ok (items ++ (a1 ++ a3)) := by
        simpa [List.append_assoc] using h3
      refine ⟨a1 ++ a3, ?_, ?_, ?_, ?_, ?_⟩
      · simp [applyPrefsList, addCustomFolders, addDockerFiles, h1, hd', hc,
          except_bind_ok, h3x, List.append_assoc]
      · simpa [List.append_assoc] using hall3
      · intro f hf
        have := any_append_left a3 (hmem1 f hf)
        simpa [List.append_assoc] using this
      · intro hdd; rw [hd'] at hdd; cases hdd
      · intro _
        simpa [List.append_assoc] using hg3
    · have hc' : p.include_ci_cd = false := by simpa using hc
      refine ⟨a1, ?_, hall1, hmem1, ?_, ?_⟩
      · simp [applyPrefsList, addCustomFolders, addDockerFiles, h1, hd', hc',
          except_bind_ok]
      · intro hdd; rw [hd'] at hdd; cases hdd
      · intro hcc; rw [hc'] at hcc; cases hcc

theorem applyPrefsList_noop (p : ProjectPreferences) {L : List Json}
    (h : L.all isObjB = true)
    (hcustom : ∀ f ∈ p.custom_folders, L.any (namedB f) = true)
    (hdocker : p.include_docker = true →
      ∀ f ∈ ["Dockerfile", "docker-compose.yml", ".dockerignore"],
        L.any (namedB f) = true)
    (hci : p.include_ci_cd = true → L.any (namedB ".github") = true) :
    applyPrefsList L p = .ok L := by
  have h1 : addCustomFolders L p.custom_folders = .ok L :=
    addEachIfAbsent_noop folderJson p.custom_folders L h hcustom
  by_cases hd : p.include_docker = true
  · have h2 : addDockerFiles L ["Dockerfile", "docker-compose.yml", ".dockerignore"] = .ok L :=
      addEachIfAbsent_noop fileJson _ L h (hdocker hd)
    by_cases hc : p.include_ci_cd = true
    · simp [applyPrefsList, h1, hd, hc, except_bind_ok, h2, addCiCd_noop h (hci hc)]
    · have hc' : p.include_ci_cd = false := by simpa using hc
      simp [applyPrefsList, h1, hd, hc', except_bind_ok, h2]
  · have hd' : p.include_docker = false := by simpa using hd
    by_cases hc : p.include_ci_cd = true
    · simp [applyPrefsList, h1, hd', hc, except_bind_ok, addCiCd_noop h (hci hc)]
    · have hc' : p.include_ci_cd = false := by simpa using hc
      simp [applyPrefsList, h1, hd', hc', except_bind_ok]

theorem getKey?_setFirst_self {kvs : List (String × Json)} {k : String}
    {w : Json} (h : getKey? kvs k = some w) (v : Json) :
    getKey? (setFirst kvs k v) k = some v := by
  induction kvs with
  | nil => simp [getKey?] at h
  | cons kv rest ih =>
    obtain ⟨k', v'⟩ := kv
    by_cases hk : k' = k
    · simp [setFirst, getKey?, hk]
    · simp only [setFirst, getKey?, if_neg hk] at h ⊢
      exact ih h

theorem setFirst_setFirst {kvs : List (String × Json)} {k : String}
    (v v2 : Json) : setFirst (setFirst kvs k v) k v2 = setFirst kvs k v2 := by
  induction kvs with
  | nil => rfl
  | cons kv rest ih =>
    obtain ⟨k', v'⟩ := kv
    by_cases hk : k' = k
    · simp [setFirst, hk]
    · simp [setFirst, hk, ih]

theorem validate_ok_shape {s : Json} (h : validate_structure s = .ok true) :
    ∃ kvs items, s = .obj kvs ∧
      getKey? kvs "structure" = some (.arr items) ∧
      items.all isObjB = true := by
  cases s with
  | obj kvs =>
    cases hn : getKey? kvs "name" with
    | none => simp [validate_structure, hn] at h
    | some nv =>
      cases hs : getKey? kvs "structure" with
      | none => simp [validate_structure, hn, hs] at h
      | some sv =>
        cases sv with
        | arr items =>
          cases hc : collectFileNames items with
          | error e =>
            simp [validate_structure, hn, hs, hc, Except.map] at h
          | ok names =>
            exact ⟨kvs, items, rfl, hs, collectFileNames_ok_imp_allObj hc⟩
        | null => simp [validate_structure, hn, hs] at h
        | bool b => simp [validate_structure, hn, hs] at h
        | num m e => simp [validate_structure, hn, hs] at h
        | nan => simp [validate_structure, hn, hs] at h
        | infinity b => simp [validate_structure, hn, hs] at h
        | str t => simp [validate_structure, hn, hs] at h
        | obj kvs' => simp [validate_structure, hn, hs] at h
  | null => simp [validate_structure] at h
  | bool b => simp [validate_structure] at h
  | num m e => simp [validate_structure] at h
  | nan => simp [validate_structure] at h
  | infinity b => simp [validate_structure] at h
  | str t => simp [validate_structure] at h
  | arr l => simp [validate_structure] at h

theorem addEachIfAbsent_append (mk : String → Json) :
    ∀ (fs : List String) (items l : List Json),
      addEachIfAbsent mk items fs = .ok l → ∃ adds, l = items ++ adds := by
  intro fs
  induction fs with
  | nil =>
    intro items l h
    simp only [addEachIfAbsent] at h
    cases h
    exact ⟨[], by simp⟩
  | cons f fs ih =>
    intro items l h
    cases hb : anyNamed items f with
    | error e =>
      rw [addEachIfAbsent, hb] at h
      cases h
    | ok b =>
      rw [addEachIfAbsent, hb, except_bind_ok] at h
      cases b with
      | true =>
        simp only [if_pos rfl] at h
        exact ih items l h
      | false =>
        simp only [Bool.false_eq_true, if_neg, ite_false] at h
        obtain ⟨adds, rfl⟩ := ih (items ++ [mk f]) l h
        exact ⟨[mk f] ++ adds, by simp⟩

theorem addCiCd_append {items l : List Json} (h : addCiCd items = .ok l) :
    ∃ adds, l = items ++ adds := by
  cases hb : anyNamed items ".github" with
  | error e => rw [addCiCd, hb] at h; cases h
  | ok b =>
    rw [addCiCd, hb, except_bind_ok] at h
    cases b with
    | true => cases h; exact ⟨[], by simp⟩
    | false => cases h; exact ⟨[githubJson], by simp⟩

theorem applyPrefsList_append {items l : List Json} {p : ProjectPreferences}
    (h : applyPrefsList items p = .ok l) : ∃ adds, l = items ++ adds := by
  rw [applyPrefsList] at h
  cases h1 : addCustomFolders items p.custom_folders with
  | error e => rw [h1] at h; cases h
  | ok l1 =>
    rw [h1, except_bind_ok] at h
    obtain ⟨a1, rfl⟩ := addEachIfAbsent_append folderJson p.custom_folders items l1 h1
    by_cases hd : p.include_docker = true
    · rw [if_pos hd] at h
      cases h2 : addDockerFiles (items ++ a1)
          ["Dockerfile", "docker-compose.yml", ".dockerignore"] with
      | error e => rw [h2] at h; cases h
      | ok l2 =>
        rw [h2, except_bind_ok] at h
        obtain ⟨a2, rfl⟩ :=
          addEachIfAbsent_append fileJson _ (items ++ a1) l2 h2
        by_cases hc : p.include_ci_cd = true
        · rw [if_pos hc] at h
          obtain ⟨a3, rfl⟩ := addCiCd_append h
          exact ⟨a1 ++ a2 ++ a3, by simp⟩
        · rw [if_neg hc] at h
          cases h
          exact ⟨a1 ++ a2, by simp⟩
    · rw [if_neg hd] at h
      replace h : (if p.include_ci_cd = true then addCiCd (items ++ a1)
          else pure (items ++ a1)) = Except.ok l := h
      by_cases hc : p.include_ci_cd = true
      · rw [if_pos hc] at h
        obtain ⟨a3, rfl⟩ := addCiCd_append h
        exact ⟨a1 ++ a3, by simp⟩
      · rw [if_neg hc] at h
        cases h
        exact ⟨a1, rfl⟩

/-- Claim C5: `apply_preferences` is idempotent on validated structures —
whenever a validated structure `s` is augmented to `t` by some
`ProjectPreferences`, applying the same preferences to `t` adds nothing
and returns `t` itself. -/
theorem apply_preferences_idempotent (s : Json) (p : ProjectPreferences)
    (t : Json) (hv : validate_structure s = .ok true)
    (h1 : apply_preferences s (some p) = .ok t) :
    apply_preferences t (some p) = .ok t := by
  obtain ⟨kvs, items, rfl, hks, hall⟩ := validate_ok_shape hv
  obtain ⟨adds, hL, hallL, hcustom, hdocker, hci⟩ := applyPrefsList_spec p hall
  have ht : t = setKey (.obj kvs) "structure" (.arr (items ++ adds)) := by
    have hx : apply_preferences (.obj kvs) (some p) =
        .ok (setKey (.obj kvs) "structure" (.arr (items ++ adds))) := by
      simp [apply_preferences, hks, hL, Except.map]
    rw [hx] at h1
    cases h1
    rfl
  subst ht
  have hget : getKey? (setFirst kvs "structure" (.arr (items ++ adds)))
      "structure" = some (.arr (items ++ adds)) :=
    getKey?_setFirst_self hks _
  have hnoop : applyPrefsList (items ++ adds) p = .ok (items ++ adds) :=
    applyPrefsList_noop p hallL hcustom hdocker hci
  simp [apply_preferences, setKey, hget, hnoop, Except.map, setFirst_setFirst]

/-- Witness for claim C5: applying `include_docker = true` preferences to
the already-augmented structure changes nothing (in particular there is
still exactly one `Dockerfile` entry). -/
theorem apply_preferences_idempotent_witness :
    apply_preferences sampleDockered (some { include_docker := true }) =
      .ok sampleDockered :=
  apply_preferences_idempotent sampleValid { include_docker := true }
    sampleDockered (by rfl) (by rfl)

/-- Claim C6: `apply_preferences` is purely additive — with no preferences
the structure is returned entirely unchanged, and otherwise every
successful application leaves every input top-level node unmodified in its
original position and only ever appends new nodes after them (all other
keys of the structure are untouched, as witnessed by the `setKey` form). -/
theorem apply_preferences_additive :
    (∀ s : Json, apply_preferences s none = .ok s) ∧
    (∀ (kvs : List (String × Json)) (L : List Json) (p : ProjectPreferences)
        (t : Json),
      getKey? kvs "structure" = some (.arr L) →
      apply_preferences (.obj kvs) (some p) = .ok t →
      ∃ adds, t = setKey (.obj kvs) "structure" (.arr (L ++ adds))) := by
  constructor
  · intro s
    rfl
  · intro kvs L p t hk happ
    cases hPL : applyPrefsList L p with
    | error e => simp [apply_preferences, hk, hPL, Except.map] at happ
    | ok Lout =>
      obtain ⟨adds, rfl⟩ := applyPrefsList_append hPL
      refine ⟨adds, ?_⟩
      simp only [apply_preferences, hk, hPL, Except.map] at happ
      cases happ
      rfl

/-- Witness for claim C6 at concrete inputs: a no-preferences call returns
the structure unchanged, and a Docker augmentation only appends. -/
theorem apply_preferences_additive_witness :
    apply_preferences sampleValid none = .ok sampleValid ∧
    ∃ adds, sampleDockered =
      setKey sampleValid "structure" (.arr
        ([.obj [("type", .str "file"), ("name", .str "README.md")],
          .obj [("type", .str "file"), ("name", .str ".gitignore")]] ++ adds)) :=
  ⟨apply_preferences_additive.1 sampleValid,
   apply_preferences_additive.2 _ _ { include_docker := true } sampleDockered
     (by rfl) (by rfl)⟩

/-! ## Tree rendering (claim C8) and preference parsing (claim C10) -/

/-- Claim C8: `structure_to_tree` renders the example structure
`app / [a.txt, src/[b.txt]]` to exactly the four-line tree — root name
plus `/`, `├── ` for the non-last sibling, `└── ` for the last, the folder
suffixed with `/`, and the child of the last sibling indented four
spaces. -/
theorem structure_to_tree_example :
    structure_to_tree demoTree =
      .ok "app/\n├── a.txt\n└── src/\n    └── b.txt" := by rfl

/-- Claim C10: on every non-whitespace-only preference text every boolean
flag equals exactly the substring-presence of its keywords in the
lowercased text — so the documented defaults are overwritten (no
`docs`/`documentation` occurrence gives `include_docs = false`, no `test`
occurrence gives `include_tests = false`), and a `ci` inside another word
still sets `include_ci_cd`; empty input keeps the dataclass defaults. -/
theorem parse_preferences_flags :
    (∀ t : String, ¬(pyStrip t).isEmpty = true →
      (parse_preferences t).include_docs =
        (pyContains (pyLower t) "docs" ||
         pyContains (pyLower t) "documentation") ∧
      (parse_preferences t).include_tests = pyContains (pyLower t) "test" ∧
      (parse_preferences t).include_docker = pyContains (pyLower t) "docker" ∧
      (parse_preferences t).include_ci_cd =
        (pyContains (pyLower t) "ci" ||
         pyContains (pyLower t) "github actions")) ∧
    parse_preferences "" = {} := by
  constructor
  · intro t ht
    refine ⟨?_, ?_, ?_, ?_⟩ <;> simp [parse_preferences, ht]
  · rfl

/-- Witness for claim C10: the text "use special build" is non-empty,
contains none of the `docs`/`test`/`docker` keywords but contains `ci`
inside the word "special"; the flags come out exactly as the presence
tests dictate (docs, tests, docker `false`; CI `true`). -/
theorem parse_preferences_flags_witness :
    (parse_preferences "use special build").include_docs =
      (pyContains (pyLower "use special build") "docs" ||
       pyContains (pyLower "use special build") "documentation") ∧
    (parse_preferences "use special build").include_tests =
      pyContains (pyLower "use special build") "test" ∧
    (parse_preferences "use special build").include_docker =
      pyContains (pyLower "use special build") "docker" ∧
    (parse_preferences "use special build").include_ci_cd =
      (pyContains (pyLower "use special build") "ci" ||
       pyContains (pyLower "use special build") "github actions") :=
  parse_preferences_flags.1 "use special build" (by decide)

/-! ## Output parsing (claim C7) -/

theorem firstIdx_some {p : Char → Bool} :
    ∀ {cs : List Char} {i : Nat}, firstIdx p cs = some i →
      (∃ c, cs[i]? = some c ∧ p c = true) ∧
      (∀ k, k < i → ∀ c, cs[k]? = some c → p c = false) := by
  intro cs
  induction cs with
  | nil => intro i h; cases h
  | cons c cs ih =>
    intro i h
    by_cases hp : p c = true
    · simp only [firstIdx, if_pos hp, Option.some.injEq] at h
      subst h
      exact ⟨⟨c, by simp, hp⟩, by omega⟩
    · have hp' : p c = false := by simpa using hp
      simp only [firstIdx, hp', Bool.false_eq_true, if_false,
        Option.map_eq_some'] at h
      obtain ⟨i', hi', rfl⟩ := h
      obtain ⟨⟨c', hc', hpc'⟩, hk⟩ := ih hi'
      refine ⟨⟨c', by simpa using hc', hpc'⟩, ?_⟩
      intro k hklt c0 hc0
      cases k with
      | zero =>
        simp only [List.getElem?_cons_zero, Option.some.injEq] at hc0
        subst hc0
        exact hp'
      | succ k' =>
        exact hk k' (by omega) c0 (by simpa using hc0)

theorem firstIdx_lt_length {p : Char → Bool} {cs : List Char} {i : Nat}
    (h : firstIdx p cs = some i) : i < cs.length := by
  obtain ⟨⟨c, hc, -⟩, -⟩ := firstIdx_some h
  exact (List.getElem?_eq_some.mp hc).1

/-- Claim C7: `parse_llm_output` works exactly as specified — when the text
has a brace span it `json.loads`-parses the span running from the first `{`
to the last `}` (the greedy leftmost regex match), otherwise it parses the
stripped whole text; it returns no structure precisely when the attempt so
selected fails; and the spec's two concrete examples parse and fail as
stated. -/
theorem parse_llm_output_spec :
    (∀ t : String, parse_llm_output t =
      match braceSpan t.data with
      | some sp => pyJsonLoads (String.mk sp)
      | none => pyJsonLoads (pyStrip t)) ∧
    (∀ (t : String) (sp : List Char), braceSpan t.data = some sp →
      ∃ i j, i < j ∧
        t.data[i]? = some '{' ∧
        (∀ k, k < i → ∀ c, t.data[k]? = some c → ¬c = '{') ∧
        t.data[j]? = some '}' ∧
        (∀ k, j < k → ∀ c, t.data[k]? = some c → ¬c = '}') ∧
        sp = (t.data.drop i).take (j - i + 1)) ∧
    (∀ t : String, parse_llm_output t = none ↔
      (match braceSpan t.data with
       | some sp => pyJsonLoads (String.mk sp) = none
       | none => pyJsonLoads (pyStrip t) = none)) ∧
    (parse_llm_output
        "Here is your structure:\n\x7b\"name\":\"x\",\"structure\":[]\x7d\nEnjoy!" =
      some (.obj [("name", .str "x"), ("structure", .arr [])])) ∧
    parse_llm_output "not json at all" = none := by
  refine ⟨fun t => rfl, ?_, ?_, by rfl, by rfl⟩
  · intro t sp hb
    set cs := t.data with hcs
    rw [braceSpan] at hb
    cases hi : firstIdx (· == '{') cs with
    | none => rw [hi] at hb; cases hb
    | some i =>
      rw [hi] at hb
      cases hk : firstIdx (· == '}') cs.reverse with
      | none => rw [hk] at hb; cases hb
      | some k =>
        rw [hk] at hb
        dsimp only at hb
        by_cases hij : i < cs.length - 1 - k
        · rw [if_pos hij] at hb
          obtain ⟨⟨ci, hci, hpci⟩, hmin⟩ := firstIdx_some hi
          obtain ⟨⟨cj, hcj, hpcj⟩, hmax⟩ := firstIdx_some hk
          have hklen : k < cs.length := by
            have := firstIdx_lt_length hk
            simpa using this
          have hcir : ci = '{' := by
            have := hpci
            simp only [beq_iff_eq] at this
            exact this
          have hcjr : cj = '}' := by
            have := hpcj
            simp only [beq_iff_eq] at this
            exact this
          refine ⟨i, cs.length - 1 - k, hij, by rw [← hcir]; exact hci,
            ?_, ?_, ?_, ?_⟩
          · intro k' hk' c hc hceq
            have := hmin k' hk' c hc
            rw [hceq] at this
            simp at this
          · have : cs.reverse[k]? = cs[cs.length - 1 - k]? :=
              List.getElem?_reverse (by simpa using hklen)
            rw [this] at hcj
            rw [← hcjr]
            exact hcj
          · intro k' hk' c hc hceq
            have hk'len : k' < cs.length := (List.getElem?_eq_some.mp hc).1
            have hm : cs.length - 1 - k' < k := by omega
            have hrev : cs.reverse[cs.length - 1 - k']? = cs[k']? := by
              have h0 : cs.reverse[cs.length - 1 - k']? =
                  cs[cs.length - 1 - (cs.length - 1 - k')]? :=
                List.getElem?_reverse (by simpa using (by omega : cs.length - 1 - k' < cs.length))
              rw [h0]
              congr 1
              omega
            have := hmax (cs.length - 1 - k') hm c (by rw [hrev]; exact hc)
            rw [hceq] at this
            simp at this
          · cases hb
            rfl
        · rw [if_neg hij] at hb
          cases hb
  · intro t
    cases hb : braceSpan t.data with
    | some sp => simp [parse_llm_output, hb]
    | none => simp [parse_llm_output, hb]

/-- Witness for claim C7's universally quantified parts at a concrete
input: the equation for the branch taken and the failure criterion at the
text `"x \x7by\x7d z"`, whose brace span `\x7by\x7d` is not valid JSON. -/
theorem parse_llm_output_spec_witness :
    (∃ i j, i < j ∧
      ("x \x7by\x7d z".data)[i]? = some '{' ∧
      (∀ k, k < i → ∀ c, ("x \x7by\x7d z".data)[k]? = some c → ¬c = '{') ∧
      ("x \x7by\x7d z".data)[j]? = some '}' ∧
      (∀ k, j < k → ∀ c, ("x \x7by\x7d z".data)[k]? = some c → ¬c = '}') ∧
      "\x7by\x7d".data = (("x \x7by\x7d z".data).drop i).take (j - i + 1)) ∧
    (parse_llm_output "x \x7by\x7d z" = none ↔
      (match braceSpan "x \x7by\x7d z".data with
       | some sp => pyJsonLoads (String.mk sp) = none
       | none => pyJsonLoads (pyStrip "x \x7by\x7d z") = none)) :=
  ⟨parse_llm_output_spec.2.1 "x \x7by\x7d z" "\x7by\x7d".data (by rfl),
   parse_llm_output_spec.2.2.1 "x \x7by\x7d z"⟩

/-! ## Ranking (claim C9) -/

theorem mem_insertDescStable {α : Type} {z x : ℚ × α} :
    ∀ {l : List (ℚ × α)}, z ∈ insertDescStable x l ↔ z = x ∨ z ∈ l := by
  intro l
  induction l with
  | nil => simp [insertDescStable]
  | cons y ys ih =>
    by_cases hxy : x.1 < y.1
    · simp only [insertDescStable, if_pos hxy, List.mem_cons, ih]
      tauto
    · simp only [insertDescStable, if_neg hxy, List.mem_cons]

theorem insertDescStable_sorted {α : Type} (x : ℚ × α) :
    ∀ {l : List (ℚ × α)}, l.Sorted (fun a b => b.1 ≤ a.1) →
      (insertDescStable x l).Sorted (fun a b => b.1 ≤ a.1) := by
  intro l
  induction l with
  | nil => intro _; simp [insertDescStable]
  | cons y ys ih =>
    intro h
    rw [List.sorted_cons] at h
    by_cases hxy : x.1 < y.1
    · rw [insertDescStable, if_pos hxy, List.sorted_cons]
      refine ⟨?_, ih h.2⟩
      intro z hz
      rcases mem_insertDescStable.mp hz with rfl | hz'
      · exact le_of_lt hxy
      · exact h.1 z hz'
    · rw [insertDescStable, if_neg hxy, List.sorted_cons]
      push_neg at hxy
      refine ⟨?_, ?_⟩
      · intro z hz
        rcases List.mem_cons.mp hz with rfl | hz'
        · exact hxy
        · exact le_trans (h.1 z hz') hxy
      · exact List.sorted_cons.mpr h













theorem sortDescStable_sorted {α : Type} :
    ∀ l : List (ℚ × α), (sortDescStable l).Sorted (fun a b => b.1 ≤ a.1)
  | [] => by simp [sortDescStable]
  | x :: xs => by
    rw [sortDescStable]
    exact insertDescStable_sorted x (sortDescStable_sorted xs)

theorem filter_insertDescStable {α : Type} (x : ℚ × α) (q : ℚ) :
    ∀ l : List (ℚ × α),
      (insertDescStable x l).filter (fun p => p.1 == q) =
        if x.1 == q then x :: l.filter (fun p => p.1 == q)
        else l.filter (fun p => p.1 == q) := by
  intro l
  induction l with
  | nil =>
    by_cases hxq : (x.1 == q) = true <;>
      simp [insertDescStable, List.filter_cons, hxq]
  | cons y ys ih =>
    by_cases hxy : x.1 < y.1
    · rw [insertDescStable, if_pos hxy]
      by_cases hyq : (y.1 == q) = true
      · have hxq : (x.1 == q) = false := by
          have : x.1 ≠ q := by
            intro hx
            rw [beq_iff_eq] at hyq
            rw [hx, ← hyq] at hxy
            exact lt_irrefl _ hxy
          exact beq_eq_false_iff_ne.mpr this
        simp [List.filter_cons, hyq, hxq, ih]
      · have hyq' : (y.1 == q) = false := by simpa using hyq
        simp [List.filter_cons, hyq', ih]
    · rw [insertDescStable, if_neg hxy]
      by_cases hxq : (x.1 == q) = true
      · simp [List.filter_cons, hxq]
      · have hxq' : (x.1 == q) = false := by simpa using hxq
        simp [List.filter_cons, hxq']

theorem filter_sortDescStable {α : Type} (q : ℚ) :
    ∀ l : List (ℚ × α),
      (sortDescStable l).filter (fun p => p.1 == q) =
        l.filter (fun p => p.1 == q) := by
  intro l
  induction l with
  | nil => rfl
  | cons x xs ih =>
    rw [sortDescStable, filter_insertDescStable]
    by_cases hxq : (x.1 == q) = true
    · simp [List.filter_cons, hxq, ih]
    · have hxq' : (x.1 == q) = false := by simpa using hxq
      simp [List.filter_cons, hxq', ih]

/-- Claim C9: `find_similar_repos` scores the catalog in order, sorts the
scored list stably in descending score order (Python's
`sort(key=..., reverse=True)`), and returns the first `top_k` entries (the
orchestrator passes the default `top_k = 2`).  The sorted list is
descending, and for every score value the equally-scored entries appear in
exactly their original catalog order (stability under ties); an
unavailable embedding model yields `[]`. -/
theorem find_similar_repos_ranking (sim : String → String → ℚ)
    (project_desc : String) (tech_stack : List String)
    (example_repos : List ExampleRepo) (top_k : Nat) :
    (find_similar_repos (some sim) project_desc tech_stack example_repos top_k =
      ((sortDescStable
        (similarityList sim project_desc tech_stack example_repos)).take
          top_k).map Prod.snd) ∧
    (sortDescStable
      (similarityList sim project_desc tech_stack example_repos)).Sorted
        (fun a b => b.1 ≤ a.1) ∧
    (∀ q : ℚ,
      (sortDescStable
        (similarityList sim project_desc tech_stack example_repos)).filter
          (fun p => p.1 == q) =
        (similarityList sim project_desc tech_stack example_repos).filter
          (fun p => p.1 == q)) ∧
    find_similar_repos none project_desc tech_stack example_repos top_k = [] :=
  ⟨rfl, sortDescStable_sorted _, fun q => filter_sortDescStable q _, rfl⟩

/-! ## Orchestrator (claims C2, C4) -/

theorem get_cached_structure_of_fresh {db : List CacheEntry} {key : String}
    (h : ∀ e ∈ db, ¬e.cache_key = key) :
    get_cached_structure db key = none := by
  have : db.filter (fun e => e.cache_key == key) = [] := by
    rw [List.filter_eq_nil_iff]
    intro e he
    simpa using h e he
  simp [get_cached_structure, this]

theorem get_cached_structure_append_fresh {db : List CacheEntry}
    {key : String} (entry : CacheEntry) (h : ∀ e ∈ db, ¬e.cache_key = key)
    (he : entry.cache_key = key) :
    get_cached_structure (db ++ [entry]) key = some entry.struct := by
  have h0 : db.filter (fun e => e.cache_key == key) = [] := by
    rw [List.filter_eq_nil_iff]
    intro e hmem
    simpa using h e hmem
  simp [get_cached_structure, List.filter_append, h0, List.filter_cons, he]

theorem setFirst_ne_nil {kvs : List (String × Json)} (h : ¬kvs = [])
    (k : String) (v : Json) : ¬setFirst kvs k v = [] := by
  cases kvs with
  | nil => exact absurd rfl h
  | cons kv rest =>
    obtain ⟨k', v'⟩ := kv
    by_cases hk : k' = k <;> simp [setFirst, hk]

theorem apply_preferences_truthy {j s : Json} {prefs : Option ProjectPreferences}
    (hv : validate_structure j = .ok true)
    (h : apply_preferences j prefs = .ok s) : jsonTruthy s = true := by
  obtain ⟨kvs, items, rfl, hks, hall⟩ := validate_ok_shape hv
  have hkvs : ¬kvs = [] := by
    intro he
    subst he
    simp [getKey?] at hks
  cases prefs with
  | none =>
    cases h
    simpa [jsonTruthy] using hkvs
  | some p =>
    rw [apply_preferences, hks] at h
    dsimp only at h
    cases hPL : applyPrefsList items p with
    | error e => rw [hPL] at h; cases h
    | ok L =>
      rw [hPL] at h
      cases h
      simpa [setKey, jsonTruthy] using setFirst_ne_nil hkvs "structure" (.arr L)

/-- Claim C2: on a cache miss, when the generation collaborator fails or
returns empty, or parsing yields nothing usable, or validation does not
succeed (returns `False` or raises), `suggest_structure` returns no
structure and writes nothing to the cache — the database is returned
exactly as it was.  (Caching happens only in the single branch where
validation and preference application both succeed.) -/
theorem suggest_structure_no_cache_on_failure
    (digest : String → String) (llm : String → Option String)
    (simFn : Option (String → String → ℚ)) (example_repos : List ExampleRepo)
    (db : List CacheEntry) (project_id project_desc : String)
    (tech_stack : List String) (prefs : Option ProjectPreferences)
    (now : String)
    (hmiss : cachedTruthy (get_cached_structure db
      (make_cache_key digest project_desc tech_stack
        (prefs.map prefsDict))) = false)
    (hfail :
      llm (suggestPrompt simFn example_repos project_desc tech_stack prefs)
          = none ∨
      llm (suggestPrompt simFn example_repos project_desc tech_stack prefs)
          = some "" ∨
      (∃ r, llm (suggestPrompt simFn example_repos project_desc tech_stack prefs)
          = some r ∧ ¬r.isEmpty = true ∧ parse_llm_output r = none) ∨
      (∃ r j, llm (suggestPrompt simFn example_repos project_desc tech_stack prefs)
          = some r ∧ ¬r.isEmpty = true ∧ parse_llm_output r = some j ∧
          jsonTruthy j = false) ∨
      (∃ r j, llm (suggestPrompt simFn example_repos project_desc tech_stack prefs)
          = some r ∧ ¬r.isEmpty = true ∧ parse_llm_output r = some j ∧
          jsonTruthy j = true ∧ ¬validate_structure j = .ok true)) :
    (suggest_structure digest llm simFn example_repos db project_id
      project_desc tech_stack prefs now).result = none ∧
    (suggest_structure digest llm simFn example_repos db project_id
      project_desc tech_stack prefs now).db = db := by
  rcases hfail with hllm | hllm | ⟨r, hllm, hr, hp⟩ | ⟨r, j, hllm, hr, hp, hj⟩ |
      ⟨r, j, hllm, hr, hp, hj, hval⟩
  · constructor <;> simp [suggest_structure, hmiss, hllm]
  · constructor <;> simp [suggest_structure, hmiss, hllm, String.isEmpty]
  · have hr' : r.isEmpty = false := by simpa using hr
    constructor <;> simp [suggest_structure, hmiss, hllm, hr', hp]
  · have hr' : r.isEmpty = false := by simpa using hr
    constructor <;> simp [suggest_structure, hmiss, hllm, hr', hp, hj]
  · have hr' : r.isEmpty = false := by simpa using hr
    cases hv : validate_structure j with
    | error e =>
      constructor <;> simp [suggest_structure, hmiss, hllm, hr', hp, hj, hv]
    | ok b =>
      cases b with
      | true => exact absurd hv hval
      | false =>
        constructor <;> simp [suggest_structure, hmiss, hllm, hr', hp, hj, hv]

/-- Claim C4: on a cache hit — the lookup for the derived key finds a
stored structure (any truthy value; every structure the pipeline stores is
one) — `suggest_structure` returns that structure immediately: the
generation collaborator, the output parser and the validator are invoked
zero times and the cache is unchanged.  Consequently, two calls with
identical arguments against a cache holding no entry for the derived key
invoke the generation collaborator exactly once: once in the first call
and zero times in the second, which returns the structure stored by the
first. -/
theorem suggest_structure_cache_hit :
    (∀ (digest : String → String) (llm : String → Option String)
        (simFn : Option (String → String → ℚ))
        (example_repos : List ExampleRepo) (db : List CacheEntry)
        (project_id project_desc : String) (tech_stack : List String)
        (prefs : Option ProjectPreferences) (now : String) (c : Json),
      get_cached_structure db (make_cache_key digest project_desc tech_stack
        (prefs.map prefsDict)) = some c →
      jsonTruthy c = true →
      suggest_structure digest llm simFn example_repos db project_id
        project_desc tech_stack prefs now = ⟨some c, db, 0, 0, 0⟩) ∧
    (∀ (digest : String → String) (llm : String → Option String)
        (simFn : Option (String → String → ℚ))
        (example_repos : List ExampleRepo) (db : List CacheEntry)
        (project_id project_desc : String) (tech_stack : List String)
        (prefs : Option ProjectPreferences) (now now2 : String) (s : Json),
      (∀ e ∈ db, ¬e.cache_key = make_cache_key digest project_desc tech_stack
        (prefs.map prefsDict)) →
      (suggest_structure digest llm simFn example_repos db project_id
        project_desc tech_stack prefs now).result = some s →
      (suggest_structure digest llm simFn example_repos db project_id
        project_desc tech_stack prefs now).llmCalls = 1 ∧
      suggest_structure digest llm simFn example_repos
        (suggest_structure digest llm simFn example_repos db project_id
          project_desc tech_stack prefs now).db
        project_id project_desc tech_stack prefs now2 =
        ⟨some s,
         (suggest_structure digest llm simFn example_repos db project_id
           project_desc tech_stack prefs now).db, 0, 0, 0⟩) := by
  constructor
  · intro digest llm simFn example_repos db project_id project_desc tech_stack
      prefs now c hc htr
    simp [suggest_structure, hc, cachedTruthy, htr]
  · intro digest llm simFn example_repos db project_id project_desc tech_stack
      prefs now now2 s hfresh hres
    have hmiss0 : get_cached_structure db (make_cache_key digest project_desc
        tech_stack (prefs.map prefsDict)) = none :=
      get_cached_structure_of_fresh hfresh
    have hmiss : cachedTruthy (get_cached_structure db (make_cache_key digest
        project_desc tech_stack (prefs.map prefsDict))) = false := by
      rw [hmiss0]; rfl
    cases hllm : llm (suggestPrompt simFn example_repos project_desc
        tech_stack prefs) with
    | none => simp [suggest_structure, hmiss, hllm] at hres
    | some r =>
      cases hre : r.isEmpty with
      | true => simp [suggest_structure, hmiss, hllm, hre] at hres
      | false =>
        cases hp : parse_llm_output r with
        | none => simp [suggest_structure, hmiss, hllm, hre, hp] at hres
        | some j =>
          cases hjt : jsonTruthy j with
          | false =>
            simp [suggest_structure, hmiss, hllm, hre, hp, hjt] at hres
          | true =>
            cases hv : validate_structure j with
            | error e =>
              simp [suggest_structure, hmiss, hllm, hre, hp, hjt, hv] at hres
            | ok b =>
              cases b with
              | false =>
                simp [suggest_structure, hmiss, hllm, hre, hp, hjt, hv] at hres
              | true =>
                cases ha : apply_preferences j prefs with
                | error e =>
                  simp [suggest_structure, hmiss, hllm, hre, hp, hjt, hv, ha]
                    at hres
                | ok s2 =>
                  have hs2 : s2 = s := by
                    simpa [suggest_structure, hmiss, hllm, hre, hp, hjt, hv, ha]
                      using hres
                  subst hs2
                  have hout1 : suggest_structure digest llm simFn example_repos
                      db project_id project_desc tech_stack prefs now =
                      ⟨some s2, cache_structure db (make_cache_key digest
                        project_desc tech_stack (prefs.map prefsDict))
                        project_id s2 now, 1, 1, 1⟩ := by
                    simp [suggest_structure, hmiss, hllm, hre, hp, hjt, hv, ha]
                  rw [hout1]
                  refine ⟨rfl, ?_⟩
                  have hhit : get_cached_structure (db ++
                      [⟨make_cache_key digest project_desc tech_stack
                          (prefs.map prefsDict), project_id, s2, now⟩])
                      (make_cache_key digest project_desc tech_stack
                        (prefs.map prefsDict)) = some s2 :=
                    get_cached_structure_append_fresh _ hfresh rfl
                  have htr : cachedTruthy (some s2) = true :=
                    apply_preferences_truthy hv ha
                  simp [suggest_structure, cache_structure, hhit, htr]


/-- Witness for claim C2: with a failing generation collaborator and an
empty cache, the call returns no structure and the cache stays empty. -/
theorem suggest_structure_no_cache_on_failure_witness :
    (suggest_structure id (fun _ => none) none [] [] "pid" "desc" ["Python"]
      none "t0").result = none ∧
    (suggest_structure id (fun _ => none) none [] [] "pid" "desc" ["Python"]
      none "t0").db = [] :=
  suggest_structure_no_cache_on_failure id (fun _ => none) none [] [] "pid"
    "desc" ["Python"] none "t0" (by rfl) (Or.inl rfl)

/-- Witness for claim C4: a concrete successful first call invokes the
generation collaborator once; the second call with identical arguments is
served from the cache with zero generation, parsing or validation calls. -/
theorem suggest_structure_cache_hit_witness :
    (suggest_structure (fun _ => "k") (fun _ => none) none []
      [⟨"k", "pid", sampleValid, "t0"⟩] "pid2" "desc" ["Python"] none "t1" =
      ⟨some sampleValid, [⟨"k", "pid", sampleValid, "t0"⟩], 0, 0, 0⟩) ∧
    (suggest_structure id (fun _ => some sampleResponse) none [] [] "pid"
      "desc" ["Python"] none "t0").llmCalls = 1 ∧
    suggest_structure id (fun _ => some sampleResponse) none []
      (suggest_structure id (fun _ => some sampleResponse) none [] [] "pid"
        "desc" ["Python"] none "t0").db "pid" "desc" ["Python"] none "t1" =
      ⟨some sampleValid,
       (suggest_structure id (fun _ => some sampleResponse) none [] [] "pid"
         "desc" ["Python"] none "t0").db, 0, 0, 0⟩ :=
  ⟨suggest_structure_cache_hit.1 (fun _ => "k") (fun _ => none) none []
     [⟨"k", "pid", sampleValid, "t0"⟩] "pid2" "desc" ["Python"] none "t1"
     sampleValid (by rfl) (by rfl),
   suggest_structure_cache_hit.2 id (fun _ => some sampleResponse) none [] []
     "pid" "desc" ["Python"] none "t0" "t1" sampleValid (by simp) (by rfl)⟩

end DirGen

